import Mathlib

/-!
Verification model of the routing, validation, approval and ranking core of
the multi-source agent repository.

Sources embedded here:
* `src/src/tools/bashTool.js` — command validator (`validateCommand`),
  pending-command store (`pendingCommands` Map, `generateCommandId`,
  `executeApprovedCommand`, `rejectCommand`).
* the agent file (`processWithFallback`) — deterministic keyword fallback
  router and its tool-input synthesis.
* the document tool (`_call`, `calculateRelevance`) — relevance ranker.

JS strings are modelled as Lean `String` / `List Char`; the JS regexes used
by the validator are modelled by a small pattern language `Pat` together
with a matcher `matchSeqF` whose search semantics (existence of a match)
coincides with `RegExp.prototype.test`.  `Date.now()` and
`Math.random().toString(36).substr(2, 9)` are oracle inputs (a `Nat`
timestamp and a `String` suffix), and the awaited result of `execAsync` is
an oracle `SubprocResult`, so that the otherwise-pure store transitions are
explicit state-passing functions.
-/

/-! ### A model of the JS regexes used by `validateCommand`

Every regex in `bashTool.js` is a concatenation of string literals and the
character-class atoms `\s+`, `\s*`, `.*` and `[^>]`, optionally anchored at
the start with `^`.  `Pat` has exactly these shapes. -/

/-- One atom of a JS regex: a literal character sequence, a single character
from a class, one-or-more characters from a class (`\s+`), or zero-or-more
characters from a class (`\s*`, `.*`). -/
inductive Pat where
  | lit (w : List Char)
  | cls (p : Char → Bool)
  | plus (p : Char → Bool)
  | star (p : Char → Bool)

/-- The ASCII part of the JS `\s` character class (space, tab, line feed,
carriage return, vertical tab, form feed).  JS additionally includes some
Unicode space code points, which never occur in the inputs considered
here. -/
def jsWhitespace (c : Char) : Bool :=
  c = ' ' || c = '\t' || c = '\n' || c = '\r' || c = '\x0b' || c = '\x0c'

/-- The JS `.` class (without the `s` flag): any character except a line
terminator. -/
def jsDot (c : Char) : Bool :=
  !(c = '\n' || c = '\r' || c = '\u2028' || c = '\u2029')

/-- The JS `[^>]` class. -/
def notGt (c : Char) : Bool := !(c = '>')

/-- Does the concatenation of `ps` match some prefix of `s`?  Full
backtracking over all splits, so the result is exactly "a match exists",
which is what `RegExp.prototype.test` observes.  The `fuel` argument makes
the recursion structural: each step either consumes a character or strictly
shrinks the weighted pattern size (`plus` at weight 4 unfolds into `cls` at
1 plus `star` at 2), so `s.length + 4 * ps.length + 1` steps always
suffice. -/
def matchSeqF : Nat → List Pat → List Char → Bool
  | _, [], _ => true
  | 0, _ :: _, _ => false
  | n + 1, Pat.lit w :: ps, s => w.isPrefixOf s && matchSeqF n ps (s.drop w.length)
  | n + 1, Pat.cls p :: ps, s =>
      match s with
      | [] => false
      | c :: cs => p c && matchSeqF n ps cs
  | n + 1, Pat.plus p :: ps, s => matchSeqF n (Pat.cls p :: Pat.star p :: ps) s
  | n + 1, Pat.star p :: ps, s =>
      matchSeqF n ps s ||
      match s with
      | [] => false
      | c :: cs => p c && matchSeqF n (Pat.star p :: ps) cs

/-- Match of the pattern sequence at the start of `s` (with sufficient
fuel). -/
def matchAt (ps : List Pat) (s : List Char) : Bool :=
  matchSeqF (s.length + 4 * ps.length + 1) ps s

/-- Unanchored search: match of the pattern sequence starting at any
position of `s`.  This is `test` for a regex without `^`. -/
def searchPats (ps : List Pat) : List Char → Bool
  | [] => matchAt ps []
  | c :: cs => matchAt ps (c :: cs) || searchPats ps cs

/-- A JS regex as used by the validator: an optional `^` anchor, the atom
sequence, and its source text (JS interpolates a `RegExp` into a template
string as `/source/`, which appears in rejection reasons). -/
structure JsRegex where
  anchored : Bool
  pats : List Pat
  display : String

/-- Model of `re.test(command)`. -/
def rtest (re : JsRegex) (command : String) : Bool :=
  if re.anchored then matchAt re.pats command.data else searchPats re.pats command.data

/-- Shorthand for a literal atom. -/
def plit (s : String) : Pat := Pat.lit s.data

/-! ### `validateCommand` (bashTool.js lines 52-137) -/

/-- The result object of `validateCommand`: `{ isValid: false, reason }` or
`{ isValid: true }`. -/
structure ValidationOutcome where
  isValid : Bool
  reason : Option String
deriving DecidableEq

/-- The `dangerousPatterns` array of `validateCommand`, in source order. -/
def dangerousPatterns : List JsRegex := [
  ⟨false, [plit "rm", Pat.plus jsWhitespace, plit "-rf"], "/rm\\s+-rf/"⟩,
  ⟨false, [plit "sudo", Pat.plus jsWhitespace], "/sudo\\s+/"⟩,
  ⟨false, [plit "chmod", Pat.plus jsWhitespace, plit "777"], "/chmod\\s+777/"⟩,
  ⟨false, [plit "chown", Pat.plus jsWhitespace], "/chown\\s+/"⟩,
  ⟨false, [plit "passwd"], "/passwd/"⟩,
  ⟨false, [plit "useradd"], "/useradd/"⟩,
  ⟨false, [plit "userdel"], "/userdel/"⟩,
  ⟨false, [plit "groupadd"], "/groupadd/"⟩,
  ⟨false, [plit "groupdel"], "/groupdel/"⟩,
  ⟨false, [plit "mount"], "/mount/"⟩,
  ⟨false, [plit "umount"], "/umount/"⟩,
  ⟨false, [plit "fdisk"], "/fdisk/"⟩,
  ⟨false, [plit "mkfs"], "/mkfs/"⟩,
  ⟨false, [plit "dd", Pat.plus jsWhitespace, plit "if="], "/dd\\s+if=/"⟩,
  ⟨false, [plit "nc", Pat.plus jsWhitespace], "/nc\\s+/"⟩,
  ⟨false, [plit "netcat"], "/netcat/"⟩,
  ⟨false, [plit "wget", Pat.plus jsWhitespace, Pat.star jsDot, plit "-O",
           Pat.plus jsWhitespace, plit "/dev/shm"], "/wget\\s+.*-O\\s+\\/dev\\/shm/"⟩,
  ⟨false, [plit "curl", Pat.plus jsWhitespace, Pat.star jsDot, plit "-o",
           Pat.plus jsWhitespace, plit "/dev/shm"], "/curl\\s+.*-o\\s+\\/dev\\/shm/"⟩,
  ⟨false, [plit ">", Pat.star jsWhitespace, plit "/etc/"], "/>\\s*\\/etc\\//"⟩,
  ⟨false, [plit ">>", Pat.star jsWhitespace, plit "/etc/"], "/>>\\s*\\/etc\\//"⟩,
  ⟨false, [plit "cat", Pat.plus jsWhitespace, plit ">", Pat.star jsDot, plit "/etc/"],
   "/cat\\s+>.*\\/etc\\//"⟩,
  ⟨false, [plit "echo", Pat.plus jsWhitespace, Pat.star jsDot, plit ">",
           Pat.star jsWhitespace, plit "/etc/"], "/echo\\s+.*>\\s*\\/etc\\//"⟩]

/-- The `safeCommands` array of `validateCommand`, in source order (all
anchored with `^`). -/
def safeCommands : List JsRegex := [
  ⟨true, [plit "curl", Pat.plus jsWhitespace], "/^curl\\s+/"⟩,
  ⟨true, [plit "wget", Pat.plus jsWhitespace], "/^wget\\s+/"⟩,
  ⟨true, [plit "ping", Pat.plus jsWhitespace], "/^ping\\s+/"⟩,
  ⟨true, [plit "nslookup", Pat.plus jsWhitespace], "/^nslookup\\s+/"⟩,
  ⟨true, [plit "dig", Pat.plus jsWhitespace], "/^dig\\s+/"⟩,
  ⟨true, [plit "date"], "/^date/"⟩,
  ⟨true, [plit "uptime"], "/^uptime/"⟩,
  ⟨true, [plit "whoami"], "/^whoami/"⟩,
  ⟨true, [plit "pwd"], "/^pwd/"⟩,
  ⟨true, [plit "ls", Pat.plus jsWhitespace], "/^ls\\s+/"⟩,
  ⟨true, [plit "cat", Pat.plus jsWhitespace], "/^cat\\s+/"⟩,
  ⟨true, [plit "grep", Pat.plus jsWhitespace], "/^grep\\s+/"⟩,
  ⟨true, [plit "head", Pat.plus jsWhitespace], "/^head\\s+/"⟩,
  ⟨true, [plit "tail", Pat.plus jsWhitespace], "/^tail\\s+/"⟩,
  ⟨true, [plit "wc", Pat.plus jsWhitespace], "/^wc\\s+/"⟩,
  ⟨true, [plit "sort", Pat.plus jsWhitespace], "/^sort\\s+/"⟩,
  ⟨true, [plit "uniq", Pat.plus jsWhitespace], "/^uniq\\s+/"⟩,
  ⟨true, [plit "cut", Pat.plus jsWhitespace], "/^cut\\s+/"⟩,
  ⟨true, [plit "awk", Pat.plus jsWhitespace], "/^awk\\s+/"⟩,
  ⟨true, [plit "sed", Pat.plus jsWhitespace], "/^sed\\s+/"⟩,
  ⟨true, [plit "find", Pat.plus jsWhitespace], "/^find\\s+/"⟩,
  ⟨true, [plit "which", Pat.plus jsWhitespace], "/^which\\s+/"⟩,
  ⟨true, [plit "whereis", Pat.plus jsWhitespace], "/^whereis\\s+/"⟩,
  ⟨true, [plit "ps", Pat.plus jsWhitespace], "/^ps\\s+/"⟩,
  ⟨true, [plit "top", Pat.star jsWhitespace], "/^top\\s*/"⟩,
  ⟨true, [plit "df", Pat.plus jsWhitespace], "/^df\\s+/"⟩,
  ⟨true, [plit "du", Pat.plus jsWhitespace], "/^du\\s+/"⟩,
  ⟨true, [plit "free", Pat.star jsWhitespace], "/^free\\s*/"⟩,
  ⟨true, [plit "uname", Pat.star jsWhitespace], "/^uname\\s*/"⟩,
  ⟨true, [plit "hostname"], "/^hostname/"⟩,
  ⟨true, [plit "id", Pat.star jsWhitespace], "/^id\\s*/"⟩,
  ⟨true, [plit "groups", Pat.star jsWhitespace], "/^groups\\s*/"⟩,
  ⟨true, [plit "env", Pat.star jsWhitespace], "/^env\\s*/"⟩,
  ⟨true, [plit "printenv", Pat.star jsWhitespace], "/^printenv\\s*/"⟩,
  ⟨true, [plit "history", Pat.star jsWhitespace], "/^history\\s*/"⟩,
  ⟨true, [plit "echo", Pat.plus jsWhitespace, Pat.cls notGt], "/^echo\\s+[^>]/"⟩,
  ⟨true, [plit "printf", Pat.plus jsWhitespace], "/^printf\\s+/"⟩]

/-- Model of `validateCommand` (bashTool.js 52-137): first deny pattern that tests
true rejects with a reason naming the pattern; otherwise the command must
match some allow pattern, else it is rejected with the fixed reason;
otherwise it is valid. -/
def validateCommand (command : String) : ValidationOutcome :=
  match dangerousPatterns.find? (fun p => rtest p command) with
  | some p =>
      ⟨false, some ("Command contains potentially dangerous pattern: " ++ p.display)⟩
  | none =>
      if safeCommands.any (fun p => rtest p command) then ⟨true, none⟩
      else ⟨false, some "Command not in the list of allowed safe commands"⟩

example : (validateCommand "rm  -rf /tmp").isValid = false := by decide
example : (validateCommand "date").isValid = true := by decide
example : (validateCommand "cat /etc/passwd").isValid = false := by decide
example : (validateCommand "cat /tmp/x").isValid = true := by decide
example : (validateCommand "shutdown now").isValid = false := by decide
example : (validateCommand "echo hi > /etc/hosts").isValid = false := by decide
example : (validateCommand "echo hi").isValid = true := by decide

/-! ### The pending-command store (bashTool.js lines 20, 33-50, 139-208)

`this.pendingCommands` is a JS `Map` keyed by the command id: insertion
ordered, `set` overwrites an existing key in place, `get` looks up, `delete`
removes.  It is modelled as an association list with those exact
operations. -/

/-- The value stored in `pendingCommands`: `{ command, description,
timestamp }` (the timestamp is the `Date.now()` value at submission). -/
structure PendingCommand where
  command : String
  description : String
  timestamp : Nat
deriving DecidableEq

/-- The `pendingCommands` map. -/
abbrev Store := List (String × PendingCommand)

/-- Model of `Map.prototype.get`. -/
def mapGet (m : Store) (k : String) : Option PendingCommand :=
  (m.find? (fun kv => kv.1 = k)).map (fun kv => kv.2)

/-- Model of `Map.prototype.set`: overwrite in place when the key is present,
otherwise append. -/
def mapSet (m : Store) (k : String) (v : PendingCommand) : Store :=
  if m.any (fun kv => kv.1 = k) then
    m.map (fun kv => if kv.1 = k then (k, v) else kv)
  else m ++ [(k, v)]

/-- Model of `Map.prototype.delete` (keys are unique, so removing every binding of
the key is the removal of the one binding). -/
def mapDelete (m : Store) (k : String) : Store :=
  m.filter (fun kv => !(kv.1 = k))

/-- Model of `generateCommandId` (bashTool.js 139-141):
`` `cmd_${Date.now()}_${Math.random().toString(36).substr(2, 9)}` ``.
The wall clock and the random suffix are oracle inputs `now` and `rand`. -/
def generateCommandId (now : Nat) (rand : String) : String :=
  "cmd_" ++ toString now ++ "_" ++ rand

/-- The submission path of `_call` (bashTool.js 23-50) after a successful
JSON parse: validate, and if valid store the pending entry under a fresh id
and return it.  Returns `Except.error reason` when validation rejects
(`_call` throws).  `now`/`rand` are the `Date.now()` and `Math.random()`
oracles observed during this call. -/
def submitCommand (store : Store) (now : Nat) (rand : String)
    (command description : String) : Except String (Store × String) :=
  let validation := validateCommand command
  if validation.isValid then
    let commandId := generateCommandId now rand
    Except.ok (mapSet store commandId ⟨command, description, now⟩, commandId)
  else
    Except.error ("Command rejected: " ++ validation.reason.getD "")

/-- The awaited outcome of `execAsync(command, { timeout: 30000, maxBuffer:
1024 * 1024 })`: either captured stdout/stderr, or a rejection with an
error message (non-zero exit, timeout, or buffer overflow). -/
inductive SubprocResult where
  | ok (stdout stderr : String)
  | err (msg : String)

/-- The `command_result` object returned by a successful
`executeApprovedCommand`. -/
structure CommandResult where
  success : Bool
  command : String
  output : String
  warnings : String
deriving DecidableEq

/-- The lookup/check phase of `executeApprovedCommand` (bashTool.js
154-157): a plain `Map.get`, before the subprocess is awaited; the store is
not modified. -/
def approveLookup (store : Store) (commandId : String) : Option PendingCommand :=
  mapGet store commandId

/-- The completion phase of `executeApprovedCommand` (bashTool.js 159-180),
entered after `execAsync` has resolved or rejected: delete the entry (in
both the success branch and the catch branch) and produce the result from
the command data captured by the lookup phase. -/
def approveFinish (store : Store) (commandId : String) (commandData : PendingCommand)
    (subproc : SubprocResult) : Store × Except String CommandResult :=
  match subproc with
  | SubprocResult.ok stdout stderr =>
      (mapDelete store commandId,
       Except.ok ⟨true, commandData.command, stdout, stderr⟩)
  | SubprocResult.err msg =>
      (mapDelete store commandId,
       Except.error ("Command execution failed: " ++ msg))

/-- Model of `executeApprovedCommand` (bashTool.js 153-181) run without
interleaving: the lookup phase followed directly by the completion phase;
an unknown id throws `not found or already executed` and leaves the store
unchanged. -/
def executeApprovedCommand (store : Store) (commandId : String)
    (subproc : SubprocResult) : Store × Except String CommandResult :=
  match approveLookup store commandId with
  | none => (store, Except.error ("Command " ++ commandId ++ " not found or already executed"))
  | some commandData => approveFinish store commandId commandData subproc

/-- The `command_rejected` object returned by `rejectCommand`. -/
structure RejectedRecord where
  commandId : String
  command : String
deriving DecidableEq

/-- Model of `rejectCommand` (bashTool.js 183-195): get, and on a hit delete and
return the rejected command; an unknown id throws `not found`.  No `await`
separates the check from the removal. -/
def rejectCommand (store : Store) (commandId : String) :
    Store × Except String RejectedRecord :=
  match mapGet store commandId with
  | none => (store, Except.error ("Command " ++ commandId ++ " not found"))
  | some commandData =>
      (mapDelete store commandId, Except.ok ⟨commandId, commandData.command⟩)

/-- Model of `getPendingCommands` (bashTool.js 197-208): snapshot of the entries in
map (insertion) order. -/
def getPendingCommands (store : Store) : List (String × PendingCommand) :=
  store

/-! ### The fallback router (`processWithFallback` in the agent file) -/

/-- JS `String.prototype.includes`: substring containment. -/
def jsIncludes (hay needle : List Char) : Bool :=
  needle.isPrefixOf hay ||
    match hay with
    | [] => false
    | _ :: t => jsIncludes t needle

/-- Test of `lowerQuery.includes(kw)` for a string-valued query and keyword. -/
def incl (s kw : String) : Bool := jsIncludes s.data kw.data

/-- JS `String.prototype.toLowerCase`, restricted to its ASCII action
(`Char.toLower`); the non-ASCII keywords of the router are already lower
case in the source. -/
def jsToLower (s : String) : String := String.mk (s.data.map Char.toLower)

/-- The input handed to the selected tool by `processWithFallback`: a SQL
statement for `sqlite_database`, the raw query for `document_search`, or
the command/description pair serialized to JSON for `bash_command`. -/
inductive ToolInput where
  | sql (stmt : String)
  | doc (q : String)
  | bash (command description : String)
deriving DecidableEq

/-- The routing half of `processWithFallback` (lines 136-172): ordered
keyword tests over the lower-cased query, first hit wins, defaulting to
`document_search`. -/
def fallbackToolName (query : String) : String :=
  let lowerQuery := jsToLower query
  if (incl lowerQuery "hora" || incl lowerQuery "time" ||
      incl lowerQuery "data" || incl lowerQuery "date") = true then
    "bash_command"
  else if (incl lowerQuery "artista" || incl lowerQuery "album" ||
           incl lowerQuery "música" || incl lowerQuery "music" ||
           incl lowerQuery "track" || incl lowerQuery "venda" ||
           incl lowerQuery "sale") = true then
    "sqlite_database"
  else if (incl lowerQuery "economia" || incl lowerQuery "economics" ||
           incl lowerQuery "livro" || incl lowerQuery "book" ||
           incl lowerQuery "documento" || incl lowerQuery "document") = true then
    "document_search"
  else
    "document_search"

/-- The input-synthesis half of `processWithFallback` (lines 176-217): the
`switch (toolName)` generating the tool input. -/
def fallbackToolInput (query : String) (toolName : String) : ToolInput :=
  let lowerQuery := jsToLower query
  if toolName = "sqlite_database" then
    if (incl lowerQuery "quantos" || incl lowerQuery "how many") = true then
      ToolInput.sql "SELECT COUNT(*) as count FROM Artist"
    else if (incl lowerQuery "artista" || incl lowerQuery "artist") = true then
      ToolInput.sql "SELECT * FROM Artist LIMIT 10"
    else if (incl lowerQuery "album" || incl lowerQuery "album") = true then
      ToolInput.sql "SELECT * FROM Album LIMIT 10"
    else
      ToolInput.sql "SELECT * FROM Artist LIMIT 5"
  else if toolName = "document_search" then
    ToolInput.doc query
  else if toolName = "bash_command" then
    if (incl lowerQuery "hora" || incl lowerQuery "time") = true then
      ToolInput.bash "date" "Get current date and time"
    else
      ToolInput.bash "date" "Get current date and time"
  else
    ToolInput.doc query

/-- The routing-and-input part of `processWithFallback`: the pair the
orchestration then dispatches on. -/
def processWithFallback (query : String) : String × ToolInput :=
  let toolName := fallbackToolName query
  (toolName, fallbackToolInput query toolName)

example : processWithFallback "what time is it" =
    ("bash_command", ToolInput.bash "date" "Get current date and time") := by decide
example : processWithFallback "how many artists" =
    ("document_search", ToolInput.doc "how many artists") := by decide
example : processWithFallback "how many sales" =
    ("sqlite_database", ToolInput.sql "SELECT COUNT(*) as count FROM Artist") := by decide
example : processWithFallback "what is capitalism" =
    ("document_search", ToolInput.doc "what is capitalism") := by decide

/-! ### The document relevance ranker (documentTool.js `_call`,
`calculateRelevance`) -/

/-- JS `split(/\s+/)`: pieces between maximal whitespace runs, with an
empty leading piece when the string starts with whitespace, an empty
trailing piece when it ends with whitespace, and `[""]` for the empty
string.  The `delim` flag records being inside a whitespace run whose
preceding piece has already been emitted. -/
def jsSplitWsGo : List Char → Bool → List Char → List (List Char)
  | [], true, _ => [[]]
  | [], false, acc => [acc.reverse]
  | c :: cs, true, acc =>
      if jsWhitespace c then jsSplitWsGo cs true acc else jsSplitWsGo cs false [c]
  | c :: cs, false, acc =>
      if jsWhitespace c then acc.reverse :: jsSplitWsGo cs true []
      else jsSplitWsGo cs false (c :: acc)

/-- JS `s.split(/\s+/)`. -/
def jsSplitWs (s : List Char) : List (List Char) := jsSplitWsGo s false []

example : (jsSplitWs " a  bb ".data).map String.mk = ["", "a", "bb", ""] := by decide
example : (jsSplitWs "".data).map String.mk = [""] := by decide

/-- One step of matching the paragraph delimiter `/\n\s*\n/` directly
after its initial `\n` has been consumed: greedy `\s*` followed by `\n`
consumes up to the last line feed inside the maximal whitespace run of
`cs`; `none` when that run has no line feed (no match at this
position). -/
def matchParaDelim (cs : List Char) : Option (List Char) :=
  let r := (cs.takeWhile jsWhitespace).reverse.dropWhile (fun c => !(c = '\n'))
  if r.isEmpty then none else some (cs.drop r.length)

/-- JS `content.split(/\n\s*\n/)` by left-to-right scanning for successive
delimiter matches.  Each step consumes at least one character, so
`s.length + 1` fuel always suffices (the out-of-fuel branch is
unreachable). -/
def jsSplitParasGo : Nat → List Char → List Char → List (List Char)
  | _, [], acc => [acc.reverse]
  | 0, _ :: _, acc => [acc.reverse]
  | n + 1, c :: cs, acc =>
      if c = '\n' then
        match matchParaDelim cs with
        | some rest => acc.reverse :: jsSplitParasGo n rest []
        | none => jsSplitParasGo n cs ('\n' :: acc)
      else jsSplitParasGo n cs (c :: acc)

/-- JS `s.split(/\n\s*\n/)`. -/
def jsSplitParas (s : List Char) : List (List Char) :=
  jsSplitParasGo (s.length + 1) s []

example : (jsSplitParas "a\n\nb\n \nc".data).map String.mk = ["a", "b", "c"] := by decide
example : (jsSplitParas "a\nb".data).map String.mk = ["a\nb"] := by decide

/-- Model of `calculateRelevance` (documentTool.js 102-114): for each search term,
count the whitespace-delimited words of the content whose lower-cased form
contains the term as a substring, and sum the counts.  The caller passes
the content already lower-cased. -/
def calculateRelevance (content : List Char) (searchTerms : List (List Char)) : Nat :=
  let words := jsSplitWs content
  searchTerms.foldl
    (fun score term =>
      score + (words.filter (fun word => jsIncludes (word.map Char.toLower) term)).length)
    0

/-- One corpus document: file name and raw text content. -/
structure DocFile where
  name : String
  content : String

/-- An element of the `results` array of `_call` before the final mapping:
`{ source, relevance, content }` where `content` is the joined relevant
paragraphs (the JS object also repeats `searchTerms`, omitted here).  The
extra `idx` field is instrumentation recording the corpus enumeration
position at which the element was pushed; it is used only to state the
tie-breaking order. -/
structure RawResult where
  source : String
  relevance : Nat
  content : String
  idx : Nat
deriving DecidableEq

/-- Model of `query.toLowerCase().split(/\s+/)` (documentTool.js 27). -/
def searchTermsOf (query : String) : List (List Char) :=
  jsSplitWs (query.data.map Char.toLower)

/-- The per-file loop of `_call` (documentTool.js 29-65): score each file,
and for scores above zero collect up to three paragraphs containing some
search term; push a result when at least one such paragraph exists.  `i`
is the enumeration index of the first file of `files`. -/
def buildResults (searchTerms : List (List Char)) : List DocFile → Nat → List RawResult
  | [], _ => []
  | f :: fs, i =>
      let contentLower := f.content.data.map Char.toLower
      let relevanceScore := calculateRelevance contentLower searchTerms
      let rest := buildResults searchTerms fs (i + 1)
      if 0 < relevanceScore then
        let paragraphs := jsSplitParas f.content.data
        let relevantParagraphs :=
          (paragraphs.filter (fun paragraph =>
            searchTerms.any (fun term => jsIncludes (paragraph.map Char.toLower) term))).take 3
        if relevantParagraphs.length ≠ 0 then
          ⟨f.name, relevanceScore,
           String.mk (List.intercalate ['\n', '\n'] relevantParagraphs), i⟩ :: rest
        else rest
      else rest

/-- Stable insertion of an element into a list already sorted by descending
relevance: the element passes elements of strictly greater relevance and
stops in front of the first element of smaller-or-equal relevance, hence in
front of its ties. -/
def insertByRelevance (e : RawResult) : List RawResult → List RawResult
  | [] => [e]
  | x :: xs =>
      if e.relevance < x.relevance then x :: insertByRelevance e xs
      else e :: x :: xs

/-- Model of `results.sort((a, b) => b.relevance - a.relevance)` (documentTool.js
68).  `Array.prototype.sort` is stable (ECMA-262, since ES2019), and for a
comparator that is a consistent total preorder every stable sort produces
the same list, so stable insertion sort realizes it. -/
def sortByRelevance : List RawResult → List RawResult
  | [] => []
  | x :: xs => insertByRelevance x (sortByRelevance xs)

/-- The sorted results array of `_call` for a query over a corpus. -/
def rankedResults (query : String) (files : List DocFile) : List RawResult :=
  sortByRelevance (buildResults (searchTermsOf query) files 0)

/-- Model of `results.slice(0, 3)` (documentTool.js 69). -/
def topResults (query : String) (files : List DocFile) : List RawResult :=
  (rankedResults query files).take 3

/-- The excerpt construction of the final mapping (documentTool.js 89-91):
`content.substring(0, 500)` with `"..."` appended when the content is
longer than 500 characters. -/
def truncateExcerpt (content : List Char) : List Char :=
  content.take 500 ++ (if 500 < content.length then ['.', '.', '.'] else [])

/-- An element of the `results` field of the final JSON output. -/
structure DocSearchItem where
  source : String
  relevance : Nat
  content : String
deriving DecidableEq

/-- The output object of `_call`: either the explicit no-results object
(with the diagnostic echo of the query) or the results object. -/
inductive DocSearchOutput where
  | noResults (message query suggestions : String)
  | results (query : String) (items : List DocSearchItem)
deriving DecidableEq

/-- Model of `topResults.map(...)` (documentTool.js 86-92). -/
def documentSearchItems (query : String) (files : List DocFile) : List DocSearchItem :=
  (topResults query files).map
    (fun r => ⟨r.source, r.relevance, String.mk (truncateExcerpt r.content.data)⟩)

/-- Model of `_call` (documentTool.js 17-100) as a function of the query and the
readable corpus files. -/
def documentSearch (query : String) (files : List DocFile) : DocSearchOutput :=
  if (topResults query files).length = 0 then
    DocSearchOutput.noResults "No relevant documents found for your query." query
      "Try using different keywords or broader terms."
  else
    DocSearchOutput.results query (documentSearchItems query files)

example :
    documentSearch "capital" [⟨"a.txt", "no match here"⟩] =
      DocSearchOutput.noResults "No relevant documents found for your query." "capital"
        "Try using different keywords or broader terms." := by decide
example :
    documentSearch "capital" [⟨"a.txt", "on capitalism\n\nnothing"⟩, ⟨"b.txt", "x"⟩] =
      DocSearchOutput.results "capital" [⟨"a.txt", 1, "on capitalism"⟩] := by decide

/-! ### Store lemmas and the approval state machine claims -/

/-- Deleting a key makes it unobservable through `mapGet`. -/
theorem mapGet_mapDelete (s : Store) (k : String) : mapGet (mapDelete s k) k = none := by
  unfold mapGet mapDelete
  have h : (List.filter (fun kv => !decide (kv.1 = k)) s).find? (fun kv => decide (kv.1 = k))
      = none := by
    rw [List.find?_eq_none]
    intro x hx
    have hmem := List.mem_filter.mp hx
    simpa using hmem.2
  rw [h]
  rfl

/-- When the id is pending, `executeApprovedCommand` leaves exactly the
store with the entry deleted, whatever the subprocess did. -/
theorem executeApprovedCommand_store (store : Store) (commandId : String)
    (subproc : SubprocResult) (h : (mapGet store commandId).isSome = true) :
    (executeApprovedCommand store commandId subproc).1 = mapDelete store commandId := by
  unfold executeApprovedCommand approveLookup
  cases hg : mapGet store commandId with
  | none => rw [hg] at h; simp at h
  | some commandData => cases subproc <;> simp [approveFinish]

/-- When the id is unknown, `executeApprovedCommand` throws `NotFound` and
leaves the store unchanged. -/
theorem executeApprovedCommand_notFound (store : Store) (commandId : String)
    (subproc : SubprocResult) (h : mapGet store commandId = none) :
    executeApprovedCommand store commandId subproc =
      (store, Except.error ("Command " ++ commandId ++ " not found or already executed")) := by
  unfold executeApprovedCommand approveLookup
  rw [h]

/-- When the id is pending, `rejectCommand` deletes the entry. -/
theorem rejectCommand_store (store : Store) (commandId : String)
    (h : (mapGet store commandId).isSome = true) :
    (rejectCommand store commandId).1 = mapDelete store commandId := by
  unfold rejectCommand
  cases hg : mapGet store commandId with
  | none => rw [hg] at h; simp at h
  | some commandData => simp

/-- When the id is unknown, `rejectCommand` throws `NotFound` and leaves
the store unchanged. -/
theorem rejectCommand_notFound (store : Store) (commandId : String)
    (h : mapGet store commandId = none) :
    rejectCommand store commandId =
      (store, Except.error ("Command " ++ commandId ++ " not found")) := by
  unfold rejectCommand
  rw [h]

/-- C2.  The claim says ids come from a monotonic counter and are globally
unique, never reused.  The code instead derives the id from the
`Date.now()` timestamp and a `Math.random()` suffix: two submissions that
observe the same timestamp and the same random suffix return the very same
id, and the second `Map.set` overwrites the first live entry.  This theorem
evaluates the code on such a pair of submissions. -/
theorem generateCommandId_collision :
    submitCommand [] 100 "a1b2c3d4e" "date" "first" =
      Except.ok ([("cmd_100_a1b2c3d4e", ⟨"date", "first", 100⟩)], "cmd_100_a1b2c3d4e") ∧
    submitCommand [("cmd_100_a1b2c3d4e", ⟨"date", "first", 100⟩)] 100 "a1b2c3d4e"
        "uptime" "second" =
      Except.ok ([("cmd_100_a1b2c3d4e", ⟨"uptime", "second", 100⟩)], "cmd_100_a1b2c3d4e") := by
  exact ⟨by rfl, by rfl⟩

/-- C3.  For every pending id, `executeApprovedCommand` removes the entry
from the store whether the subprocess succeeds or fails: the resulting
store is exactly the old store with the entry deleted (removal happens
once), and the id is no longer observable as pending afterwards. -/
theorem executeApprovedCommand_removes_pending :
    ∀ (store : Store) (commandId : String) (subproc : SubprocResult),
      (mapGet store commandId).isSome = true →
      (executeApprovedCommand store commandId subproc).1 = mapDelete store commandId ∧
      mapGet (executeApprovedCommand store commandId subproc).1 commandId = none := by
  intro store commandId subproc h
  refine ⟨executeApprovedCommand_store store commandId subproc h, ?_⟩
  rw [executeApprovedCommand_store store commandId subproc h]
  exact mapGet_mapDelete store commandId

/-- Witness for C3 at a concrete store, on a failing subprocess. -/
theorem executeApprovedCommand_removes_pending_w :
    mapGet (executeApprovedCommand [("cmd_1_a", ⟨"date", "get time", 5⟩)] "cmd_1_a"
        (SubprocResult.err "timeout")).1 "cmd_1_a" = none :=
  (executeApprovedCommand_removes_pending [("cmd_1_a", ⟨"date", "get time", 5⟩)]
      "cmd_1_a" (SubprocResult.err "timeout") (by decide)).2

/-- C4.  The per-entry state machine: an unknown id yields `NotFound` for
both approve and reject; once an id has been resolved by approve (any
subprocess outcome) or by reject, any later approve or reject of the same
id yields `NotFound`; in particular reject-then-approve fails. -/
theorem resolved_id_notFound :
    ∀ (store : Store) (commandId : String) (subproc subproc' : SubprocResult),
      (mapGet store commandId = none →
        executeApprovedCommand store commandId subproc =
          (store, Except.error ("Command " ++ commandId ++ " not found or already executed")) ∧
        rejectCommand store commandId =
          (store, Except.error ("Command " ++ commandId ++ " not found"))) ∧
      ((mapGet store commandId).isSome = true →
        (executeApprovedCommand (executeApprovedCommand store commandId subproc).1
            commandId subproc').2 =
          Except.error ("Command " ++ commandId ++ " not found or already executed") ∧
        (rejectCommand (executeApprovedCommand store commandId subproc).1 commandId).2 =
          Except.error ("Command " ++ commandId ++ " not found") ∧
        (executeApprovedCommand (rejectCommand store commandId).1 commandId subproc').2 =
          Except.error ("Command " ++ commandId ++ " not found or already executed")) := by
  intro store commandId subproc subproc'
  constructor
  · intro h
    exact ⟨executeApprovedCommand_notFound store commandId subproc h,
           rejectCommand_notFound store commandId h⟩
  · intro h
    have h1 : mapGet (executeApprovedCommand store commandId subproc).1 commandId = none := by
      rw [executeApprovedCommand_store store commandId subproc h]
      exact mapGet_mapDelete store commandId
    have h2 : mapGet (rejectCommand store commandId).1 commandId = none := by
      rw [rejectCommand_store store commandId h]
      exact mapGet_mapDelete store commandId
    refine ⟨?_, ?_, ?_⟩
    · rw [executeApprovedCommand_notFound _ commandId subproc' h1]
    · rw [rejectCommand_notFound _ commandId h1]
    · rw [executeApprovedCommand_notFound _ commandId subproc' h2]

/-- Witness for C4: reject-then-approve on a concrete store fails with
`NotFound`. -/
theorem resolved_id_notFound_w :
    (executeApprovedCommand
        (rejectCommand [("cmd_1_a", ⟨"date", "get time", 5⟩)] "cmd_1_a").1 "cmd_1_a"
        (SubprocResult.ok "out" "")).2 =
      Except.error "Command cmd_1_a not found or already executed" :=
  ((resolved_id_notFound [("cmd_1_a", ⟨"date", "get time", 5⟩)] "cmd_1_a"
      (SubprocResult.ok "out" "") (SubprocResult.ok "out" "")).2 (by decide)).2.2

/-- C5.  The claim requires check-and-remove to be atomic so that of a
racing approve/reject pair exactly one wins and the other observes
`NotFound`.  In the code, `executeApprovedCommand` performs the `Map.get`
check, then awaits the subprocess, and deletes only afterwards; a
`rejectCommand` interleaved during that await also finds the entry.  On the
resulting trace both calls succeed and neither observes `NotFound`,
evaluated here at a one-entry store. -/
theorem approve_reject_race_both_win :
    approveLookup [("cmd_1_a", ⟨"date", "get time", 0⟩)] "cmd_1_a" =
      some ⟨"date", "get time", 0⟩ ∧
    rejectCommand [("cmd_1_a", ⟨"date", "get time", 0⟩)] "cmd_1_a" =
      ([], Except.ok ⟨"cmd_1_a", "date"⟩) ∧
    approveFinish [] "cmd_1_a" ⟨"date", "get time", 0⟩ (SubprocResult.ok "out" "") =
      ([], Except.ok ⟨true, "date", "out", ""⟩) := by
  exact ⟨by rfl, by rfl, by rfl⟩

/-! ### Validator claims -/

/-- Any deny-pattern hit makes `validateCommand` reject: the `find?` over
`dangerousPatterns` runs before the allow list is even consulted. -/
theorem deny_any_invalid (command : String)
    (h : dangerousPatterns.any (fun p => rtest p command) = true) :
    (validateCommand command).isValid = false := by
  unfold validateCommand
  cases hf : dangerousPatterns.find? (fun p => rtest p command) with
  | some p => simp
  | none =>
    exfalso
    rw [List.find?_eq_none] at hf
    rw [List.any_eq_true] at h
    obtain ⟨p, hp, hr⟩ := h
    exact hf p hp hr

/-- C1.  Every command matching at least one deny pattern is rejected,
whether or not it also matches an allow pattern: the deny scan runs first
and its verdict cannot be overridden. -/
theorem validateCommand_deny_wins :
    ∀ command : String,
      dangerousPatterns.any (fun p => rtest p command) = true →
      (validateCommand command).isValid = false :=
  fun command h => deny_any_invalid command h

/-- Witness for C1 at `cat /etc/passwd`, a command that also matches the
allow pattern `/^cat\s+/`. -/
theorem validateCommand_deny_wins_w :
    safeCommands.any (fun p => rtest p "cat /etc/passwd") = true ∧
    (validateCommand "cat /etc/passwd").isValid = false :=
  ⟨by decide, validateCommand_deny_wins "cat /etc/passwd" (by decide)⟩

/-- C9.  A command matching no deny pattern and no allow pattern is
rejected with the fixed not-in-allowed-set reason (the source spells it
`Command not in the list of allowed safe commands`). -/
theorem validateCommand_not_in_allowed_set :
    ∀ command : String,
      dangerousPatterns.any (fun p => rtest p command) = false →
      safeCommands.any (fun p => rtest p command) = false →
      validateCommand command =
        ⟨false, some "Command not in the list of allowed safe commands"⟩ := by
  intro command hdeny hallow
  unfold validateCommand
  have hf : dangerousPatterns.find? (fun p => rtest p command) = none := by
    rw [List.find?_eq_none]
    intro p hp
    rw [List.any_eq_false] at hdeny
    exact hdeny p hp
  rw [hf, hallow]
  rfl

/-- Witness for C9 at `shutdown now` (no deny hit, no allow hit). -/
theorem validateCommand_not_in_allowed_set_w :
    validateCommand "shutdown now" =
      ⟨false, some "Command not in the list of allowed safe commands"⟩ :=
  validateCommand_not_in_allowed_set "shutdown now" (by decide) (by decide)

/-- A literal sequence is a prefix of itself extended on the right. -/
theorem isPrefixOf_append_self (w v : List Char) : w.isPrefixOf (w ++ v) = true := by
  induction w with
  | nil => simp
  | cons c cs ih => simp [List.isPrefixOf, ih]

/-- Unfolding of `jsIncludes` on the empty haystack. -/
theorem jsIncludes_nil (w : List Char) : jsIncludes [] w = w.isPrefixOf [] := by
  rw [jsIncludes.eq_def]
  simp

/-- Unfolding of `jsIncludes` on a nonempty haystack. -/
theorem jsIncludes_cons (c : Char) (cs w : List Char) :
    jsIncludes (c :: cs) w = (w.isPrefixOf (c :: cs) || jsIncludes cs w) := by
  rw [jsIncludes.eq_def]

/-- Anchored match of a one-literal pattern is a prefix test. -/
theorem matchAt_lit (w s : List Char) : matchAt [Pat.lit w] s = w.isPrefixOf s := by
  simp [matchAt, matchSeqF]

/-- Unanchored search for a one-literal pattern succeeds on substring
containment: `/lit/.test(s)` behaves as `s.includes(lit)`. -/
theorem searchPats_lit {w : List Char} :
    ∀ s : List Char, jsIncludes s w = true → searchPats [Pat.lit w] s = true := by
  intro s
  induction s with
  | nil =>
    intro h
    rw [jsIncludes_nil] at h
    rw [searchPats, matchAt_lit]
    exact h
  | cons c cs ih =>
    intro h
    rw [jsIncludes_cons, Bool.or_eq_true] at h
    rw [searchPats, matchAt_lit, Bool.or_eq_true]
    rcases h with h1 | h2
    · exact Or.inl h1
    · exact Or.inr (ih h2)

/-- The function `jsIncludes` accepts any explicit substring decomposition. -/
theorem jsIncludes_append (u w v : List Char) : jsIncludes (u ++ (w ++ v)) w = true := by
  induction u with
  | nil =>
    rw [List.nil_append]
    cases hw : w ++ v with
    | nil =>
      rcases List.append_eq_nil.mp hw with ⟨rfl, rfl⟩
      simp [jsIncludes_nil]
    | cons c cs =>
      rw [jsIncludes_cons, Bool.or_eq_true]
      exact Or.inl (hw ▸ isPrefixOf_append_self w v)
  | cons c cu ih =>
    rw [List.cons_append, jsIncludes_cons, Bool.or_eq_true]
    exact Or.inr ih

/-- A literal deny pattern of the validator fires on any command containing
it as a substring, anywhere. -/
theorem deny_lit_substring (w : List Char) (re : JsRegex) (hmem : re ∈ dangerousPatterns)
    (hanch : re.anchored = false) (hpats : re.pats = [Pat.lit w]) :
    ∀ command : String, w <:+: command.data →
      (validateCommand command).isValid = false := by
  intro command hinf
  apply deny_any_invalid
  rw [List.any_eq_true]
  refine ⟨re, hmem, ?_⟩
  simp only [rtest, hanch, hpats, Bool.false_eq_true, if_false]
  obtain ⟨u, v, huv⟩ := hinf
  apply searchPats_lit
  rw [← huv, List.append_assoc]
  exact jsIncludes_append u w v

/-- C10.  The deny patterns are unanchored substring matches: every command
containing `passwd` (or `mount`) anywhere is rejected — including
`cat /etc/passwd`, whose `cat ` prefix is on the allow list. -/
theorem deny_patterns_unanchored :
    (∀ command : String, "passwd".data <:+: command.data →
        (validateCommand command).isValid = false) ∧
    (∀ command : String, "mount".data <:+: command.data →
        (validateCommand command).isValid = false) ∧
    (validateCommand "cat /etc/passwd").isValid = false ∧
    safeCommands.any (fun p => rtest p "cat /etc/passwd") = true := by
  have hm1 : (⟨false, [plit "passwd"], "/passwd/"⟩ : JsRegex) ∈ dangerousPatterns := by
    unfold dangerousPatterns
    exact .tail _ (.tail _ (.tail _ (.tail _ (.head _))))
  have hm2 : (⟨false, [plit "mount"], "/mount/"⟩ : JsRegex) ∈ dangerousPatterns := by
    unfold dangerousPatterns
    exact .tail _ (.tail _ (.tail _ (.tail _ (.tail _ (.tail _ (.tail _ (.tail _
      (.tail _ (.head _)))))))))
  refine ⟨deny_lit_substring "passwd".data _ hm1 rfl rfl,
          deny_lit_substring "mount".data _ hm2 rfl rfl, ?_, by decide⟩
  exact deny_lit_substring "passwd".data _ hm1 rfl rfl "cat /etc/passwd"
    ⟨"cat /etc/".data, [], by decide⟩

/-- Witness for C10 at `ls /etc/passwd`. -/
theorem deny_patterns_unanchored_w :
    (validateCommand "ls /etc/passwd").isValid = false :=
  deny_patterns_unanchored.1 "ls /etc/passwd" ⟨"ls /etc/".data, [], by decide⟩

/-! ### Fallback router claims -/

/-- C6 counterexample.  The claim's example sends `how many artists` to the
SQL tool, but the SQL branch of the router only tests the keywords
`artista`, `album`, `música`, `music`, `track`, `venda`, `sale`; none is a
substring of `how many artists`, so the query falls through to the default
`document_search`. -/
theorem fallback_artists_not_sql :
    processWithFallback "how many artists" =
      ("document_search", ToolInput.doc "how many artists") ∧
    "document_search" ≠ "sqlite_database" := by
  exact ⟨by decide, by decide⟩

/-- C6 amended.  The fallback router is a deterministic ordered substring
match over the lower-cased query, first branch wins: time/date vocabulary
selects the bash tool (always with the fixed `date` input), otherwise
music/sales vocabulary (Portuguese `artista`, not English `artist`) selects
the SQL tool, with `quantos` / `how many` yielding the count statement;
every other query — economics/book/document vocabulary or no recognized
keyword — selects document search with the raw query.  Examples:
`what time is it` → bash `date`; `how many sales` → SQL count;
`what is capitalism` and the keyword-free `hello there` → document
search. -/
theorem processWithFallback_routing :
    (∀ query : String,
      (incl (jsToLower query) "hora" || incl (jsToLower query) "time" ||
       incl (jsToLower query) "data" || incl (jsToLower query) "date") = true →
      processWithFallback query =
        ("bash_command", ToolInput.bash "date" "Get current date and time")) ∧
    (∀ query : String,
      (incl (jsToLower query) "hora" || incl (jsToLower query) "time" ||
       incl (jsToLower query) "data" || incl (jsToLower query) "date") = false →
      (incl (jsToLower query) "artista" || incl (jsToLower query) "album" ||
       incl (jsToLower query) "música" || incl (jsToLower query) "music" ||
       incl (jsToLower query) "track" || incl (jsToLower query) "venda" ||
       incl (jsToLower query) "sale") = true →
      (processWithFallback query).1 = "sqlite_database" ∧
      ((incl (jsToLower query) "quantos" || incl (jsToLower query) "how many") = true →
        (processWithFallback query).2 = ToolInput.sql "SELECT COUNT(*) as count FROM Artist")) ∧
    (∀ query : String,
      (incl (jsToLower query) "hora" || incl (jsToLower query) "time" ||
       incl (jsToLower query) "data" || incl (jsToLower query) "date") = false →
      (incl (jsToLower query) "artista" || incl (jsToLower query) "album" ||
       incl (jsToLower query) "música" || incl (jsToLower query) "music" ||
       incl (jsToLower query) "track" || incl (jsToLower query) "venda" ||
       incl (jsToLower query) "sale") = false →
      processWithFallback query = ("document_search", ToolInput.doc query)) ∧
    processWithFallback "what time is it" =
      ("bash_command", ToolInput.bash "date" "Get current date and time") ∧
    processWithFallback "how many sales" =
      ("sqlite_database", ToolInput.sql "SELECT COUNT(*) as count FROM Artist") ∧
    processWithFallback "what is capitalism" =
      ("document_search", ToolInput.doc "what is capitalism") ∧
    processWithFallback "hello there" =
      ("document_search", ToolInput.doc "hello there") := by
  refine ⟨?_, ?_, ?_, by decide, by decide, by decide, by decide⟩
  · intro query h
    simp only [processWithFallback, fallbackToolName, fallbackToolInput]
    simp [h]
  · intro query h hm
    simp only [processWithFallback, fallbackToolName, fallbackToolInput]
    refine ⟨by simp [h, hm], ?_⟩
    intro hc
    simp [h, hm, hc]
  · intro query h hm
    simp only [processWithFallback, fallbackToolName, fallbackToolInput]
    simp [h, hm]

/-- Witness for C6 amended: the SQL branch with the count statement at a
concrete query carrying a music keyword and `quantos`. -/
theorem processWithFallback_routing_w :
    (processWithFallback "quantos albums de rock").1 = "sqlite_database" ∧
    (processWithFallback "quantos albums de rock").2 =
      ToolInput.sql "SELECT COUNT(*) as count FROM Artist" := by
  have h := processWithFallback_routing.2.1 "quantos albums de rock" (by decide) (by decide)
  exact ⟨h.1, h.2 (by decide)⟩

/-! ### Ranker claims -/

/-- The order produced by the stable descending sort: later elements have
smaller-or-equal relevance, and equal-relevance elements keep their corpus
enumeration order. -/
def rankedBefore (a b : RawResult) : Prop :=
  b.relevance ≤ a.relevance ∧ (a.relevance = b.relevance → a.idx < b.idx)

/-- Insertion adds exactly the inserted element to the members. -/
theorem mem_insertByRelevance {e x : RawResult} {l : List RawResult} :
    x ∈ insertByRelevance e l ↔ x = e ∨ x ∈ l := by
  induction l with
  | nil => simp [insertByRelevance]
  | cons y ys ih =>
    rw [insertByRelevance]
    by_cases h : e.relevance < y.relevance
    · rw [if_pos h]
      rw [List.mem_cons, ih, List.mem_cons]
      tauto
    · rw [if_neg h]
      simp

/-- Inserting an element whose corpus index is below every index of an
already sorted-and-stable list keeps the list sorted and stable. -/
theorem insertByRelevance_pairwise {e : RawResult} {l : List RawResult}
    (hl : l.Pairwise rankedBefore) (he : ∀ x ∈ l, e.idx < x.idx) :
    (insertByRelevance e l).Pairwise rankedBefore := by
  induction l with
  | nil => simp [insertByRelevance, rankedBefore]
  | cons x xs ih =>
    rw [List.pairwise_cons] at hl
    obtain ⟨hx, hxs⟩ := hl
    rw [insertByRelevance]
    by_cases h : e.relevance < x.relevance
    · rw [if_pos h]
      rw [List.pairwise_cons]
      constructor
      · intro y hy
        rcases mem_insertByRelevance.mp hy with rfl | hy2
        · exact ⟨Nat.le_of_lt h, fun heq => by omega⟩
        · exact hx y hy2
      · exact ih hxs (fun y hy => he y (List.mem_cons_of_mem x hy))
    · rw [if_neg h]
      rw [List.pairwise_cons]
      constructor
      · intro y hy
        rcases List.mem_cons.mp hy with rfl | hy2
        · exact ⟨Nat.le_of_not_lt h, fun _ => he _ (List.mem_cons_self _ _)⟩
        · have hxy := hx y hy2
          exact ⟨Nat.le_trans hxy.1 (Nat.le_of_not_lt h),
                 fun _ => he y (List.mem_cons_of_mem x hy2)⟩
      · rw [List.pairwise_cons]
        exact ⟨hx, hxs⟩

/-- Sorting does not change the members. -/
theorem mem_sortByRelevance {x : RawResult} {l : List RawResult} :
    x ∈ sortByRelevance l ↔ x ∈ l := by
  induction l with
  | nil => simp [sortByRelevance]
  | cons y ys ih =>
    rw [sortByRelevance, mem_insertByRelevance, List.mem_cons, ih]

/-- On a list with strictly increasing corpus indices (as produced by the
per-file loop), the insertion sort yields a sorted-and-stable list. -/
theorem sortByRelevance_pairwise {l : List RawResult}
    (h : l.Pairwise (fun a b => a.idx < b.idx)) :
    (sortByRelevance l).Pairwise rankedBefore := by
  induction l with
  | nil => simp [sortByRelevance]
  | cons x xs ih =>
    rw [List.pairwise_cons] at h
    obtain ⟨hx, hxs⟩ := h
    rw [sortByRelevance]
    exact insertByRelevance_pairwise (ih hxs)
      (fun y hy => hx y (mem_sortByRelevance.mp hy))

/-- Every element pushed by the per-file loop carries an index at least the
starting index and a strictly positive relevance score. -/
theorem buildResults_mem {searchTerms : List (List Char)} :
    ∀ (files : List DocFile) (i : Nat) (r : RawResult),
      r ∈ buildResults searchTerms files i → i ≤ r.idx ∧ 0 < r.relevance := by
  intro files
  induction files with
  | nil =>
    intro i r h
    simp [buildResults] at h
  | cons f fs ih =>
    intro i r h
    simp only [buildResults] at h
    split at h
    · split at h
      · rcases List.mem_cons.mp h with rfl | h3
        · rename_i h1 _
          exact ⟨Nat.le_refl i, h1⟩
        · have h4 := ih (i + 1) r h3
          exact ⟨Nat.le_of_succ_le h4.1, h4.2⟩
      · have h4 := ih (i + 1) r h
        exact ⟨Nat.le_of_succ_le h4.1, h4.2⟩
    · have h4 := ih (i + 1) r h
      exact ⟨Nat.le_of_succ_le h4.1, h4.2⟩

/-- The per-file loop pushes results in strictly increasing corpus
order. -/
theorem buildResults_pairwise_idx {searchTerms : List (List Char)} :
    ∀ (files : List DocFile) (i : Nat),
      (buildResults searchTerms files i).Pairwise (fun a b => a.idx < b.idx) := by
  intro files
  induction files with
  | nil => intro i; simp [buildResults]
  | cons f fs ih =>
    intro i
    simp only [buildResults]
    split
    · split
      · refine List.pairwise_cons.mpr ⟨?_, ih (i + 1)⟩
        intro y hy
        exact Nat.lt_of_succ_le (buildResults_mem fs (i + 1) y hy).1
      · exact ih (i + 1)
    · exact ih (i + 1)

/-- C7.  For every query and corpus the ranked result contains at most 3
documents, none with relevance score 0, and is ordered by descending score
with ties in corpus enumeration order (the stable sort uses no secondary
key). -/
theorem topResults_bounded_sorted :
    ∀ (query : String) (files : List DocFile),
      (topResults query files).length ≤ 3 ∧
      (∀ r ∈ topResults query files, 0 < r.relevance) ∧
      (topResults query files).Pairwise rankedBefore := by
  intro query files
  refine ⟨List.length_take_le 3 _, ?_, ?_⟩
  · intro r hr
    have hmem : r ∈ rankedResults query files := List.take_subset 3 _ hr
    rw [rankedResults, mem_sortByRelevance] at hmem
    exact (buildResults_mem files 0 r hmem).2
  · have hp : (rankedResults query files).Pairwise rankedBefore :=
      sortByRelevance_pairwise (buildResults_pairwise_idx files 0)
    exact List.Pairwise.sublist (List.take_sublist 3 _) hp

/-- Witness for C7 at a concrete two-file corpus. -/
theorem topResults_bounded_sorted_w :
    0 < (⟨"a.txt", 1, "on capitalism", 0⟩ : RawResult).relevance :=
  (topResults_bounded_sorted "capital"
      [⟨"a.txt", "on capitalism\n\nnothing"⟩, ⟨"b.txt", "x"⟩]).2.1
    ⟨"a.txt", 1, "on capitalism", 0⟩ (by decide)

set_option maxRecDepth 100000 in
/-- C8 counterexample.  The claim bounds the excerpt at 500 characters, but
the code computes `content.substring(0, 500)` and then appends the
three-character `...` marker, so a truncated excerpt has 503 characters: a
single 501-character paragraph matching the query produces an excerpt of
length 503. -/
theorem excerpt_can_exceed_500 :
    (documentSearchItems "a" [⟨"doc1.txt", String.mk (List.replicate 501 'a')⟩]).map
        (fun it => it.content.data.length) = [503] := by
  decide

/-- C8 amended.  Every excerpt is the joined relevant paragraphs truncated
to their first 500 characters, with the `...` marker appended when the
content was cut, so its length is at most 503 (500 content characters plus
the 3-character marker), and any excerpt longer than 500 ends in the
marker. -/
theorem excerpt_length_le_503 :
    ∀ (query : String) (files : List DocFile) (item : DocSearchItem),
      item ∈ documentSearchItems query files →
      item.content.data.length ≤ 503 ∧
      (500 < item.content.data.length → item.content.data.drop 500 = ['.', '.', '.']) := by
  intro query files item hmem
  rcases List.mem_map.mp hmem with ⟨r, hr, rfl⟩
  constructor
  · show (truncateExcerpt r.content.data).length ≤ 503
    unfold truncateExcerpt
    by_cases h : 500 < r.content.data.length
    · rw [if_pos h, List.length_append, List.length_take]
      have h3 : (['.', '.', '.'] : List Char).length = 3 := rfl
      omega
    · rw [if_neg h, List.append_nil, List.length_take]
      omega
  · intro h5
    show (truncateExcerpt r.content.data).drop 500 = ['.', '.', '.']
    have h5' : 500 < (truncateExcerpt r.content.data).length := h5
    unfold truncateExcerpt at h5' ⊢
    by_cases h : 500 < r.content.data.length
    · rw [if_pos h]
      have hlen : (r.content.data.take 500).length = 500 := by
        rw [List.length_take]
        omega
      exact List.drop_left' hlen
    · exfalso
      rw [if_neg h, List.append_nil, List.length_take] at h5'
      omega

set_option maxRecDepth 100000 in
/-- Witness for C8 amended at the 501-character corpus. -/
theorem excerpt_length_le_503_w :
    (⟨"doc1.txt", 1,
        String.mk ((List.replicate 501 'a').take 500 ++ ['.', '.', '.'])⟩ :
      DocSearchItem).content.data.length ≤ 503 :=
  (excerpt_length_le_503 "a" [⟨"doc1.txt", String.mk (List.replicate 501 'a')⟩]
      ⟨"doc1.txt", 1, String.mk ((List.replicate 501 'a').take 500 ++ ['.', '.', '.'])⟩
      (by decide)).1
